import Mathlib

/-!
Verification of the offline-capable routine data layer of NestTask.

The definitions below are a shallow embedding of the code in
`src/src/pages/RoutinePage.tsx` (slot enrichment, day/query filtering,
sorting, default-routine selection, page render states) and
`src/test-offline.js` (the required-data check of the offline test script).
JavaScript `undefined`-able string fields are embedded as `Option String`;
JavaScript truthiness tests on strings (`s ? a : b`, `s || d`) treat both
`undefined` and the empty string as false, which is mirrored explicitly.
The Sync Coordinator behind `prefetchRoutineData` is not part of the two
source files and is modelled from the specification (see `SyncState`).
-/

namespace NestTask

/-! ## Data model -/

/-- A course record: `{ id, name, code }`. -/
structure Course where
  id : String
  name : String
  code : String
deriving DecidableEq

/-- A teacher record: `{ id, name }` (only the fields the routine page reads). -/
structure Teacher where
  id : String
  name : String
deriving DecidableEq

/-- A raw time-slot record of a routine.  Optional fields are `Option`;
`courseName`/`teacherName`/`roomNumber` are the denormalized fallback display
fields stored on the slot itself. -/
structure Slot where
  id : String
  dayOfWeek : String
  startTime : String
  endTime : String
  courseId : Option String
  teacherId : Option String
  courseName : Option String
  teacherName : Option String
  roomNumber : Option String
  «section» : Option String
deriving DecidableEq

/-- A routine: `{ id, name, semester, isActive, slots }`. -/
structure Routine where
  id : String
  name : String
  semester : String
  isActive : Bool
  slots : List Slot
deriving DecidableEq

/-- The result of the enrichment pass for one slot:
`{ ...slot, course, teacher, courseName, courseCode, teacherName }`.
The spread keeps every raw slot field (held here in `slot`); the three
display strings shadow the slot's own `courseName`/`teacherName`. -/
structure EnrichedSlot where
  slot : Slot
  course : Option Course
  teacher : Option Teacher
  courseName : String
  courseCode : String
  teacherName : String
deriving DecidableEq

/-- Field kept unchanged by the `{...slot}` spread. -/
def EnrichedSlot.dayOfWeek (e : EnrichedSlot) : String := e.slot.dayOfWeek

/-- Field kept unchanged by the `{...slot}` spread. -/
def EnrichedSlot.startTime (e : EnrichedSlot) : String := e.slot.startTime

/-- Field kept unchanged by the `{...slot}` spread. -/
def EnrichedSlot.roomNumber (e : EnrichedSlot) : Option String := e.slot.roomNumber

/-! ## JavaScript value helpers -/

/-- Truthiness of an optional string: `undefined` and `""` are falsy. -/
def strTruthy : Option String → Bool
  | some s => !(s == "")
  | none => false

/-- `v || d` for an optional string `v`: the value when truthy, else `d`. -/
def orDefault : Option String → String → String
  | some s, d => if s = "" then d else s
  | none, d => d

/-! ## Enrichment engine (`RoutinePage.tsx` lines 92–125) -/

/-- `courses.forEach(c => courseMap.set(c.id, c))`: a `Map` keyed by id,
where a later `set` for the same id overwrites an earlier one, so `get`
returns the last list entry with the key. -/
def buildCourseMap (cs : List Course) : String → Option Course :=
  fun k => cs.reverse.find? (fun c => c.id == k)

/-- `teachers.forEach(t => teacherMap.set(t.id, t))`, as `buildCourseMap`. -/
def buildTeacherMap (ts : List Teacher) : String → Option Teacher :=
  fun k => ts.reverse.find? (fun t => t.id == k)

/-- `slot.courseId ? courseMap.get(slot.courseId) : undefined`. -/
def resolveCourse (cm : String → Option Course) (s : Slot) : Option Course :=
  match s.courseId with
  | some cid => if cid = "" then none else cm cid
  | none => none

/-- `slot.teacherId ? teacherMap.get(slot.teacherId) : undefined`. -/
def resolveTeacher (tm : String → Option Teacher) (s : Slot) : Option Teacher :=
  match s.teacherId with
  | some tid => if tid = "" then none else tm tid
  | none => none

/-- The body of `currentRoutine.slots.map(slot => ...)`:
`courseName = slot.courseName || (course ? course.name : 'Unknown Course')`,
`courseCode = course?.code || 'N/A'`,
`teacherName = slot.teacherName || (teacher ? teacher.name : 'Unknown Teacher')`. -/
def enrichSlot (cm : String → Option Course) (tm : String → Option Teacher)
    (s : Slot) : EnrichedSlot :=
  let course := resolveCourse cm s
  let teacher := resolveTeacher tm s
  { slot := s
    course := course
    teacher := teacher
    courseName := orDefault s.courseName
      (match course with
       | some c => c.name
       | none => "Unknown Course")
    courseCode :=
      (match course with
       | some c => if c.code = "" then "N/A" else c.code
       | none => "N/A")
    teacherName := orDefault s.teacherName
      (match teacher with
       | some t => t.name
       | none => "Unknown Teacher") }

/-- The whole enrichment pass: build the two lookup maps once, then map over
the routine's slots in stored order. -/
def enrich (r : Routine) (cs : List Course) (ts : List Teacher) : List EnrichedSlot :=
  r.slots.map (enrichSlot (buildCourseMap cs) (buildTeacherMap ts))

/-! ## Query/filter engine (`RoutinePage.tsx` lines 127–139) -/

/-- `s.toLowerCase()` as a character list (character-wise ASCII lowering). -/
def lowerChars (s : String) : List Char := s.toList.map Char.toLower

/-- Auxiliary for substring search: does `needle` start `hay`? -/
def isPrefixCh : List Char → List Char → Bool
  | [], _ => true
  | _ :: _, [] => false
  | a :: as, b :: bs => a == b && isPrefixCh as bs

/-- Plain substring occurrence of `needle` in `hay`, scanning left to right. -/
def containsCh (needle : List Char) : List Char → Bool
  | [] => isPrefixCh needle []
  | b :: bs => isPrefixCh needle (b :: bs) || containsCh needle bs

/-- `hay.toLowerCase().includes(needle.toLowerCase())`. -/
def includesCI (hay needle : String) : Bool :=
  containsCh (lowerChars needle) (lowerChars hay)

/-- `matchesSearch`: empty query, or a case-insensitive substring match
against `courseName`, `courseCode`, `roomNumber` (optional-chained) or
`teacherName`. -/
def matchesSearch (q : String) (e : EnrichedSlot) : Bool :=
  q == "" ||
  includesCI e.courseName q ||
  includesCI e.courseCode q ||
  (match e.roomNumber with
   | some rn => includesCI rn q
   | none => false) ||
  includesCI e.teacherName q

/-- `matchesDay`: `format(selectedDate, 'EEEE') === slot.dayOfWeek`, the
selected date abstracted by its full weekday name. -/
def matchesDay (selDayName : String) (e : EnrichedSlot) : Bool :=
  selDayName == e.dayOfWeek

/-- `enrichedSlots.filter(slot => matchesSearch && matchesDay)`. -/
def filterSlots (slots : List EnrichedSlot) (selDayName q : String) : List EnrichedSlot :=
  slots.filter (fun e => matchesSearch q e && matchesDay selDayName e)

/-! ## Sorting (`RoutinePage.tsx` line 385) -/

/-- Strict lexicographic comparison of character lists, modelling a negative
result of `a.localeCompare(b)` on the plain `"HH:MM"` time strings. -/
def ltChars : List Char → List Char → Bool
  | [], [] => false
  | [], _ :: _ => true
  | _ :: _, [] => false
  | a :: as, b :: bs => if a < b then true else if b < a then false else ltChars as bs

/-- `a.startTime.localeCompare(b.startTime) <= 0`: the "keep `a` before `b`"
test of the comparator passed to the stable `Array.prototype.sort`. -/
def slotLE (a b : EnrichedSlot) : Bool :=
  !(ltChars b.startTime.toList a.startTime.toList)

/-- `filteredSlots.sort((a, b) => a.startTime.localeCompare(b.startTime))`;
`Array.prototype.sort` is required to be stable, embedded as a stable merge
sort with the comparator's "less or equal" test. -/
def sortSlots (l : List EnrichedSlot) : List EnrichedSlot :=
  l.mergeSort slotLE

/-- The slot sequence the page body renders for the selected day and query. -/
def presentedSlots (slots : List EnrichedSlot) (selDayName q : String) : List EnrichedSlot :=
  sortSlots (filterSlots slots selDayName q)

/-! ## Routine selection and render states (`RoutinePage.tsx` lines 57–62, 166–196) -/

/-- `currentRoutine`: with an explicitly selected id (a truthy string), look
it up and nothing else; otherwise the first active routine, else the first
routine (`routines.find(r => r.isActive) || routines[0]`). -/
def currentRoutine (selectedRoutineId : String) (routines : List Routine) : Option Routine :=
  if selectedRoutineId = "" then
    (routines.find? (fun r => r.isActive)).orElse (fun _ => routines.head?)
  else
    routines.find? (fun r => r.id == selectedRoutineId)

/-- The top-level early-return structure of the page component. -/
inductive PageView where
  | loadingView : PageView
  | errorView : String → PageView
  | noRoutineView : PageView
  | routineView : Routine → PageView
deriving DecidableEq

/-- The early returns of `RoutinePage`: loading spinner, error screen when
`error` is truthy, the "No Routine Available" empty state when
`currentRoutine` is undefined, else the routine view. -/
def renderRoutinePage (loading : Bool) (error : Option String)
    (selectedRoutineId : String) (routines : List Routine) : PageView :=
  if loading then
    PageView.loadingView
  else if strTruthy error then
    PageView.errorView (match error with | some e => e | none => "")
  else
    match currentRoutine selectedRoutineId routines with
    | none => PageView.noRoutineView
    | some r => PageView.routineView r

/-! ## Sync coordinator (modelled from the spec) -/

/-- The three record kinds the data layer caches and prefetches. -/
inductive Kind where
  | routine : Kind
  | course : Kind
  | teacher : Kind
deriving DecidableEq

/-- Modelled from the spec: the Sync Coordinator behind `prefetchRoutineData`
(its implementation lives outside the two source files; only the call site in
`RoutinePage.tsx` lines 52–55 is in scope).  Spec §4.2/§5: a mapping from
kind to an in-flight pending-result handle that all concurrent callers attach
to, plus a log of the fetches actually issued. -/
structure SyncState where
  inFlight : List (Kind × Nat)
  nextHandle : Nat
  fetchLog : List (Kind × Nat)
deriving DecidableEq

/-- The state before any prefetch: nothing in flight, nothing fetched. -/
def SyncState.initial : SyncState :=
  { inFlight := [], nextHandle := 0, fetchLog := [] }

/-- The pending-result handle currently in flight for a kind, if any. -/
def lookupFlight (k : Kind) : List (Kind × Nat) → Option Nat
  | [] => none
  | (k2, h) :: rest => if k2 = k then some h else lookupFlight k rest

/-- Modelled from the spec (§4.2 steps 1 and 5): prefetching one kind.  A
kind already in flight issues no fetch and hands the caller the existing
pending-result handle; otherwise a fresh handle is allocated, the kind is
marked in flight, and one fetch is issued (logged). -/
def prefetchKind (st : SyncState) (k : Kind) : SyncState × Nat :=
  match lookupFlight k st.inFlight with
  | some h => (st, h)
  | none =>
    ({ inFlight := (k, st.nextHandle) :: st.inFlight
       nextHandle := st.nextHandle + 1
       fetchLog := st.fetchLog ++ [(k, st.nextHandle)] },
     st.nextHandle)

/-- Modelled from the spec: `prefetch(kinds)` processes the requested kinds
in order, returning the handle each caller awaits per kind. -/
def prefetch (st : SyncState) (kinds : List Kind) : SyncState × List Nat :=
  match kinds with
  | [] => (st, [])
  | k :: rest =>
    let p := prefetchKind st k
    let q := prefetch p.1 rest
    (q.1, p.2 :: q.2)

/-- The number of fetches issued for a kind, read off the fetch log. -/
def fetchCount (k : Kind) (log : List (Kind × Nat)) : Nat :=
  (log.filter (fun p => decide (p.1 = k))).length

/-- The kind set of `prefetch({routine, course, teacher})`. -/
def allKinds : List Kind := [Kind.routine, Kind.course, Kind.teacher]

/-! ## Offline test script (`test-offline.js` lines 84–111) -/

/-- `storesToCheck`: the five stores the script inspects. -/
def storesToCheck : List String :=
  ["routines", "courses", "teachers", "tasks", "userData"]

/-- The `results` array: one `{ storeName, count }` per checked store, the
count of a missing store being 0. -/
def storeResults (counts : String → Nat) : List (String × Nat) :=
  storesToCheck.map (fun n => (n, counts n))

/-- `hasRequiredData = results.every(r => (r.storeName === 'routines' &&
r.count > 0) || (r.storeName === 'courses' && r.count > 0) ||
(r.storeName === 'teachers' && r.count > 0))`. -/
def hasRequiredData (counts : String → Nat) : Bool :=
  (storeResults counts).all (fun r =>
    (r.1 == "routines" && decide (0 < r.2)) ||
    (r.1 == "courses" && decide (0 < r.2)) ||
    (r.1 == "teachers" && decide (0 < r.2)))

/-- Which of the two console messages the script prints. -/
inductive TestReport where
  | success : TestReport
  | missingData : TestReport
deriving DecidableEq

/-- `if (hasRequiredData) { ✅ success } else { ⚠️ missing data }`. -/
def offlineTestReport (counts : String → Nat) : TestReport :=
  if hasRequiredData counts then TestReport.success else TestReport.missingData

/-! ## Specification-side predicates -/

/-- The spec's notion of a case-insensitive plain-substring match: the
lowercased needle occurs contiguously inside the lowercased haystack. -/
def SubstrCI (needle hay : String) : Prop :=
  ∃ l r, lowerChars hay = l ++ lowerChars needle ++ r

/-! ## Sample data for witnesses -/

/-- The spec §8 example course `{id:"c1", name:"Data Structures", code:"CS201"}`. -/
def sampleCourse : Course :=
  { id := "c1", name := "Data Structures", code := "CS201" }

/-- A sample teacher record. -/
def sampleTeacher : Teacher :=
  { id := "t1", name := "Dr. Rahman" }

/-- A slot with no denormalized course/teacher name and an unresolvable
`courseId`, exercising the sentinel end of the fallback chain. -/
def slotUnresolved : Slot :=
  { id := "s1", dayOfWeek := "Monday", startTime := "09:00", endTime := "10:30",
    courseId := some "c9", teacherId := some "t9",
    courseName := none, teacherName := none,
    roomNumber := none, «section» := none }

/-- A slot whose denormalized `courseName` and `teacherName` are the empty
string, with a resolvable `courseId` and an unresolvable `teacherId`. -/
def slotEmptyNames : Slot :=
  { id := "s2", dayOfWeek := "Monday", startTime := "11:00", endTime := "12:30",
    courseId := some "c1", teacherId := some "t9",
    courseName := some "", teacherName := some "",
    roomNumber := some "301", «section» := none }

/-- An inactive sample routine. -/
def routineA : Routine :=
  { id := "r1", name := "Routine A", semester := "Spring", isActive := false, slots := [] }

/-- An active sample routine. -/
def routineB : Routine :=
  { id := "r2", name := "Routine B", semester := "Spring", isActive := true,
    slots := [slotUnresolved] }

/-- A second active sample routine, after `routineB` in stored order. -/
def routineC : Routine :=
  { id := "r3", name := "Routine C", semester := "Fall", isActive := true, slots := [] }

/-! ## Theorems -/

/-- C4: For every Routine R and every Course set C and Teacher set T,
enrichment produces exactly |R.slots| EnrichedSlots, one per Slot of R (each
carrying exactly that slot's raw record), in the same order as R.slots. -/
theorem enrich_length_and_order (r : Routine) (cs : List Course) (ts : List Teacher) :
    (enrich r cs ts).length = r.slots.length ∧
    (enrich r cs ts).map EnrichedSlot.slot = r.slots := by
  constructor
  · simp [enrich]
  · show (r.slots.map (enrichSlot (buildCourseMap cs) (buildTeacherMap ts))).map
        EnrichedSlot.slot = r.slots
    rw [List.map_map]
    have h : EnrichedSlot.slot ∘ enrichSlot (buildCourseMap cs) (buildTeacherMap ts) =
        fun s => s := funext fun s => rfl
    rw [h]
    exact List.map_id' r.slots

/-- C1: For every slot processed by the enrichment pass (with nonempty
denormalized strings when given, and nonempty course codes), each display
string follows the fallback chain: the denormalized field on the Slot if
present, otherwise the corresponding field of the resolved Course/Teacher,
otherwise the sentinel "Unknown Course" / "N/A" / "Unknown Teacher" (for
courseCode the Slot stores no denormalized field, so the chain starts at the
resolved record).  In particular a slot with courseName undefined and an
unresolved courseId yields "Unknown Course" and "N/A" (see the witness). -/
theorem enrichment_fallback_chain (cs : List Course) (ts : List Teacher) (s : Slot)
    (hcn : ∀ v, s.courseName = some v → v ≠ "")
    (htn : ∀ v, s.teacherName = some v → v ≠ "")
    (hcode : ∀ c, resolveCourse (buildCourseMap cs) s = some c → c.code ≠ "") :
    (enrichSlot (buildCourseMap cs) (buildTeacherMap ts) s).courseName =
      (match s.courseName with
       | some v => v
       | none =>
         match resolveCourse (buildCourseMap cs) s with
         | some c => c.name
         | none => "Unknown Course") ∧
    (enrichSlot (buildCourseMap cs) (buildTeacherMap ts) s).courseCode =
      (match resolveCourse (buildCourseMap cs) s with
       | some c => c.code
       | none => "N/A") ∧
    (enrichSlot (buildCourseMap cs) (buildTeacherMap ts) s).teacherName =
      (match s.teacherName with
       | some v => v
       | none =>
         match resolveTeacher (buildTeacherMap ts) s with
         | some t => t.name
         | none => "Unknown Teacher") := by
  refine ⟨?_, ?_, ?_⟩
  · cases hsc : s.courseName with
    | some v =>
      have hv := hcn v hsc
      simp [enrichSlot, orDefault, hsc, hv]
    | none => simp [enrichSlot, orDefault, hsc]
  · cases hrc : resolveCourse (buildCourseMap cs) s with
    | some c =>
      have hc := hcode c hrc
      simp [enrichSlot, hrc, hc]
    | none => simp [enrichSlot, hrc]
  · cases hst : s.teacherName with
    | some v =>
      have hv := htn v hst
      simp [enrichSlot, orDefault, hst, hv]
    | none => simp [enrichSlot, orDefault, hst]

/-- Witness for C1: the concrete slot of the spec's fallback-chain test. -/
theorem enrichment_fallback_chain_witness :
    (enrichSlot (buildCourseMap []) (buildTeacherMap []) slotUnresolved).courseName =
      "Unknown Course" ∧
    (enrichSlot (buildCourseMap []) (buildTeacherMap []) slotUnresolved).courseCode = "N/A" ∧
    (enrichSlot (buildCourseMap []) (buildTeacherMap []) slotUnresolved).teacherName =
      "Unknown Teacher" := by
  have h := enrichment_fallback_chain [] [] slotUnresolved
    (by intro v hv; simp [slotUnresolved] at hv)
    (by intro v hv; simp [slotUnresolved] at hv)
    (by intro c hc; simp [resolveCourse, buildCourseMap, slotUnresolved] at hc)
  simpa [slotUnresolved, resolveCourse, resolveTeacher, buildCourseMap, buildTeacherMap]
    using h

/-- C9: In the fallback chain a denormalized field equal to the empty string
is treated as absent (the chain tests truthiness, not field presence): with
courseName = some "" (resp. teacherName = some "") the display string comes
from the resolved record when one resolves, else from the sentinel. -/
theorem empty_denormalized_treated_absent (cs : List Course) (ts : List Teacher) (s : Slot) :
    (s.courseName = some "" →
      (enrichSlot (buildCourseMap cs) (buildTeacherMap ts) s).courseName =
        (match resolveCourse (buildCourseMap cs) s with
         | some c => c.name
         | none => "Unknown Course")) ∧
    (s.teacherName = some "" →
      (enrichSlot (buildCourseMap cs) (buildTeacherMap ts) s).teacherName =
        (match resolveTeacher (buildTeacherMap ts) s with
         | some t => t.name
         | none => "Unknown Teacher")) := by
  constructor
  · intro h
    simp [enrichSlot, orDefault, h]
  · intro h
    simp [enrichSlot, orDefault, h]

/-- Witness for C9: empty denormalized names; course resolves (giving its
name), teacher does not (giving the sentinel). -/
theorem empty_denormalized_treated_absent_witness :
    (enrichSlot (buildCourseMap [sampleCourse]) (buildTeacherMap []) slotEmptyNames).courseName =
      "Data Structures" ∧
    (enrichSlot (buildCourseMap [sampleCourse]) (buildTeacherMap []) slotEmptyNames).teacherName =
      "Unknown Teacher" := by
  have h := empty_denormalized_treated_absent [sampleCourse] [] slotEmptyNames
  constructor
  · have h1 := h.1 rfl
    simpa [resolveCourse, buildCourseMap, slotEmptyNames, sampleCourse] using h1
  · have h2 := h.2 rfl
    simpa [resolveTeacher, buildTeacherMap, slotEmptyNames] using h2

/-- C6: A slot reference whose identifier has no matching entry resolves to
`none` and the display strings fall back (denormalized field when truthy,
else sentinel); enrichment is a total function, so nothing is ever thrown. -/
theorem unresolved_reference_fallback (cs : List Course) (ts : List Teacher) (s : Slot) :
    (∀ cid, s.courseId = some cid → (∀ c ∈ cs, c.id ≠ cid) →
      (enrichSlot (buildCourseMap cs) (buildTeacherMap ts) s).course = none ∧
      (enrichSlot (buildCourseMap cs) (buildTeacherMap ts) s).courseName =
        (match s.courseName with
         | some v => if v = "" then "Unknown Course" else v
         | none => "Unknown Course") ∧
      (enrichSlot (buildCourseMap cs) (buildTeacherMap ts) s).courseCode = "N/A") ∧
    (∀ tid, s.teacherId = some tid → (∀ t ∈ ts, t.id ≠ tid) →
      (enrichSlot (buildCourseMap cs) (buildTeacherMap ts) s).teacher = none ∧
      (enrichSlot (buildCourseMap cs) (buildTeacherMap ts) s).teacherName =
        (match s.teacherName with
         | some v => if v = "" then "Unknown Teacher" else v
         | none => "Unknown Teacher")) := by
  constructor
  · intro cid hcid hmiss
    have hr : resolveCourse (buildCourseMap cs) s = none := by
      simp only [resolveCourse, hcid]
      split
      · rfl
      · simp only [buildCourseMap]
        exact List.find?_eq_none.mpr
          (fun c hc => by simp [hmiss c (List.mem_reverse.mp hc)])
    refine ⟨by simp [enrichSlot, hr], ?_, by simp [enrichSlot, hr]⟩
    cases hsn : s.courseName <;> simp [enrichSlot, hr, orDefault, hsn]
  · intro tid htid hmiss
    have hr : resolveTeacher (buildTeacherMap ts) s = none := by
      simp only [resolveTeacher, htid]
      split
      · rfl
      · simp only [buildTeacherMap]
        exact List.find?_eq_none.mpr
          (fun t ht => by simp [hmiss t (List.mem_reverse.mp ht)])
    refine ⟨by simp [enrichSlot, hr], ?_⟩
    cases hsn : s.teacherName <;> simp [enrichSlot, hr, orDefault, hsn]

/-- Witness for C6: both references of the sample slot are unresolvable even
with nonempty course/teacher sets. -/
theorem unresolved_reference_fallback_witness :
    (enrichSlot (buildCourseMap [sampleCourse]) (buildTeacherMap [sampleTeacher])
      slotUnresolved).course = none ∧
    (enrichSlot (buildCourseMap [sampleCourse]) (buildTeacherMap [sampleTeacher])
      slotUnresolved).courseName = "Unknown Course" ∧
    (enrichSlot (buildCourseMap [sampleCourse]) (buildTeacherMap [sampleTeacher])
      slotUnresolved).courseCode = "N/A" ∧
    (enrichSlot (buildCourseMap [sampleCourse]) (buildTeacherMap [sampleTeacher])
      slotUnresolved).teacher = none ∧
    (enrichSlot (buildCourseMap [sampleCourse]) (buildTeacherMap [sampleTeacher])
      slotUnresolved).teacherName = "Unknown Teacher" := by
  have h := unresolved_reference_fallback [sampleCourse] [sampleTeacher] slotUnresolved
  have h1 := h.1 "c9" rfl (by decide)
  have h2 := h.2 "t9" rfl (by decide)
  refine ⟨h1.1, ?_, h1.2.2, h2.1, ?_⟩
  · simpa [slotUnresolved] using h1.2.1
  · simpa [slotUnresolved] using h2.2

/-- C5: With no routine explicitly selected, the routine displayed is the
first routine in stored order with a true active flag; if none is active,
the first routine of the list; and no routine is selected exactly when the
routine list is empty. -/
theorem default_routine_selection (rs : List Routine) :
    (∀ pre a post, rs = pre ++ a :: post → a.isActive = true →
        (∀ x ∈ pre, x.isActive = false) → currentRoutine "" rs = some a) ∧
    ((∀ r ∈ rs, r.isActive = false) → currentRoutine "" rs = rs.head?) ∧
    (currentRoutine "" rs = none ↔ rs = []) := by
  refine ⟨?_, ?_, ?_⟩
  · intro pre a post hsplit ha hpre
    subst hsplit
    have hfind : (pre ++ a :: post).find? (fun r => r.isActive) = some a := by
      induction pre with
      | nil => simp [List.find?, ha]
      | cons x xs ih =>
        have hx : x.isActive = false := hpre x (by simp)
        have ih2 := ih (fun y hy => hpre y (by simp [hy]))
        simpa [List.find?, hx] using ih2
    simp [currentRoutine, hfind, Option.orElse]
  · intro hnone
    have hfind : rs.find? (fun r => r.isActive) = none :=
      List.find?_eq_none.mpr (fun x hx => by simp [hnone x hx])
    simp [currentRoutine, hfind, Option.orElse]
  · cases rs with
    | nil => simp [currentRoutine, Option.orElse]
    | cons r rest =>
      simp only [currentRoutine, if_pos rfl]
      constructor
      · intro h
        exfalso
        cases hf : (r :: rest).find? (fun x => x.isActive) with
        | some v => simp [hf, Option.orElse] at h
        | none => simp [hf, Option.orElse] at h
      · intro h
        exact absurd h (by simp)

/-- Witness for C5: `routineB` is the first active routine and is chosen over
the inactive `routineA` and the later active `routineC`; the empty list
selects nothing. -/
theorem default_routine_selection_witness :
    currentRoutine "" [routineA, routineB, routineC] = some routineB ∧
    currentRoutine "" [] = none := by
  constructor
  · exact (default_routine_selection [routineA, routineB, routineC]).1
      [routineA] routineB [routineC] rfl (by decide) (by decide)
  · exact (default_routine_selection []).2.2.mpr rfl

/-- C8: If an explicitly selected routine id no longer occurs in the routines
list, no fallback to the active or first routine happens: the selected
routine is undefined and the page renders the "No Routine Available" empty
state even when other routines exist. -/
theorem missing_selected_routine_empty_state (selectedId : String) (rs : List Routine)
    (hne : selectedId ≠ "")
    (hmiss : ∀ r ∈ rs, r.id ≠ selectedId) :
    currentRoutine selectedId rs = none ∧
    renderRoutinePage false none selectedId rs = PageView.noRoutineView := by
  have hcur : currentRoutine selectedId rs = none := by
    simp only [currentRoutine, if_neg hne]
    exact List.find?_eq_none.mpr (fun r hr => by simp [hmiss r hr])
  exact ⟨hcur, by simp [renderRoutinePage, strTruthy, hcur]⟩

/-- Witness for C8: id "r9" is selected but absent while two routines (one
of them active) exist; the page still shows the empty state. -/
theorem missing_selected_routine_empty_state_witness :
    currentRoutine "r9" [routineA, routineB] = none ∧
    renderRoutinePage false none "r9" [routineA, routineB] = PageView.noRoutineView :=
  missing_selected_routine_empty_state "r9" [routineA, routineB] (by decide) (by decide)

/-- C7: Two immediately successive `prefetch({routine, course, teacher})`
calls issue at most one fetch per kind: a prefetch of a kind already in
flight changes nothing and returns the existing pending handle (so all
concurrent callers awaiting that kind receive the same outcome), the second
call issues no fetch at all, and both calls hand back the same handles. -/
theorem prefetch_single_flight :
    (∀ st k h, lookupFlight k st.inFlight = some h → prefetchKind st k = (st, h)) ∧
    (prefetch (prefetch SyncState.initial allKinds).1 allKinds).1.fetchLog =
      (prefetch SyncState.initial allKinds).1.fetchLog ∧
    (prefetch (prefetch SyncState.initial allKinds).1 allKinds).2 =
      (prefetch SyncState.initial allKinds).2 ∧
    ∀ k, fetchCount k (prefetch (prefetch SyncState.initial allKinds).1 allKinds).1.fetchLog ≤ 1 := by
  refine ⟨?_, ?_, ?_, ?_⟩
  · intro st k h hh
    simp [prefetchKind, hh]
  · decide
  · decide
  · intro k
    cases k <;> decide

/-- Witness for C7: prefetching a kind with a pending handle in flight is a
no-op that returns that same handle. -/
theorem prefetch_single_flight_witness :
    prefetchKind { inFlight := [(Kind.course, 7)], nextHandle := 9, fetchLog := [] }
      Kind.course =
      ({ inFlight := [(Kind.course, 7)], nextHandle := 9, fetchLog := [] }, 7) :=
  prefetch_single_flight.1
    { inFlight := [(Kind.course, 7)], nextHandle := 9, fetchLog := [] }
    Kind.course 7 (by decide)

/-- Correctness of the auxiliary search helper: `isPrefixCh` decides "the
haystack starts with the needle". -/
theorem isPrefixCh_iff (n : List Char) : ∀ h : List Char,
    isPrefixCh n h = true ↔ ∃ r, h = n ++ r := by
  induction n with
  | nil => intro h; simp [isPrefixCh]
  | cons a as ih =>
    intro h
    cases h with
    | nil =>
      simp [isPrefixCh]
    | cons b bs =>
      simp only [isPrefixCh, Bool.and_eq_true, beq_iff_eq, ih, List.cons_append,
        List.cons.injEq]
      constructor
      · rintro ⟨hab, r, hr⟩
        exact ⟨r, hab.symm, hr⟩
      · rintro ⟨r, hba, hr⟩
        exact ⟨hba.symm, r, hr⟩

/-- Correctness of the substring scan: `containsCh` decides contiguous
occurrence of the needle inside the haystack. -/
theorem containsCh_iff (n : List Char) : ∀ h : List Char,
    containsCh n h = true ↔ ∃ l r, h = l ++ n ++ r := by
  intro h
  induction h with
  | nil =>
    simp only [containsCh]
    rw [isPrefixCh_iff]
    constructor
    · rintro ⟨r, hr⟩
      exact ⟨[], r, by simpa using hr⟩
    · rintro ⟨l, r, hr⟩
      have h2 := hr.symm
      rw [List.append_assoc] at h2
      rcases List.append_eq_nil.mp h2 with ⟨h3, h4⟩
      exact ⟨r, h4.symm⟩
  | cons b bs ih =>
    simp only [containsCh, Bool.or_eq_true]
    rw [isPrefixCh_iff, ih]
    constructor
    · rintro (⟨r, hr⟩ | ⟨l, r, hr⟩)
      · exact ⟨[], r, by simpa using hr⟩
      · exact ⟨b :: l, r, by simp [hr]⟩
    · rintro ⟨l, r, hr⟩
      cases l with
      | nil => exact Or.inl ⟨r, by simpa using hr⟩
      | cons x xs =>
        rw [List.cons_append, List.cons_append] at hr
        injection hr with hbx hbs
        exact Or.inr ⟨xs, r, hbs⟩

/-- The code's `includes` test agrees with the spec's plain case-insensitive
substring relation. -/
theorem includesCI_iff (hay needle : String) :
    includesCI hay needle = true ↔ SubstrCI needle hay := by
  simp only [includesCI, SubstrCI]
  exact containsCh_iff _ _

/-- C2: The filter keeps exactly (as a subsequence) the slots whose
day-of-week equals that of the selected date and for which the query is
empty or a case-insensitive plain-substring (not tokenized, not fuzzy) of
courseName, courseCode, roomNumber or teacherName. -/
theorem filter_keeps_exactly (slots : List EnrichedSlot) (d q : String) :
    List.Sublist (filterSlots slots d q) slots ∧
    ∀ e, e ∈ filterSlots slots d q ↔
      e ∈ slots ∧ e.dayOfWeek = d ∧
        (q = "" ∨ SubstrCI q e.courseName ∨ SubstrCI q e.courseCode ∨
          (∃ rn, e.roomNumber = some rn ∧ SubstrCI q rn) ∨ SubstrCI q e.teacherName) := by
  constructor
  · exact List.filter_sublist slots
  · intro e
    simp only [filterSlots, List.mem_filter, Bool.and_eq_true]
    apply and_congr_right
    intro _
    rw [and_comm]
    apply and_congr
    · simp only [matchesDay, beq_iff_eq]
      exact eq_comm
    · simp only [matchesSearch, Bool.or_eq_true, beq_iff_eq, includesCI_iff]
      cases hrn : e.roomNumber with
      | some rn => simp [includesCI_iff, or_assoc]
      | none => simp [or_assoc]

/-- Lexicographic comparison is irreflexive. -/
theorem ltChars_irrefl (x : List Char) : ltChars x x = false := by
  induction x with
  | nil => rfl
  | cons a as ih => simp [ltChars, lt_irrefl a, ih]

/-- Lexicographic comparison is transitive. -/
theorem ltChars_trans : ∀ {x y z : List Char},
    ltChars x y = true → ltChars y z = true → ltChars x z = true := by
  intro x
  induction x with
  | nil =>
    intro y z h1 h2
    cases y with
    | nil => simp [ltChars] at h1
    | cons b bs =>
      cases z with
      | nil => simp [ltChars] at h2
      | cons c cs2 => simp [ltChars]
  | cons a as ih =>
    intro y z h1 h2
    cases y with
    | nil => simp [ltChars] at h1
    | cons b bs =>
      cases z with
      | nil => simp [ltChars] at h2
      | cons c cs2 =>
        simp only [ltChars] at h1 h2 ⊢
        rcases lt_trichotomy a b with hab | hab | hab
        · rcases lt_trichotomy b c with hbc | hbc | hbc
          · simp [lt_trans hab hbc]
          · subst hbc
            simp [hab]
          · simp [asymm hbc, hbc] at h2
        · subst hab
          simp only [lt_irrefl, if_false] at h1
          rcases lt_trichotomy a c with hac | hac | hac
          · simp [hac]
          · subst hac
            simp only [lt_irrefl, if_false] at h2 ⊢
            exact ih h1 h2
          · simp [asymm hac, hac] at h2
        · simp [asymm hab, hab] at h1

/-- Lexicographic comparison is asymmetric. -/
theorem ltChars_asymm {x y : List Char} (h : ltChars x y = true) : ltChars y x = false := by
  cases hyx : ltChars y x with
  | false => rfl
  | true =>
    have hx := ltChars_trans h hyx
    simp [ltChars_irrefl] at hx

/-- Two lists neither of which lexicographically precedes the other are equal. -/
theorem ltChars_conn : ∀ {x y : List Char},
    ltChars x y = false → ltChars y x = false → x = y := by
  intro x
  induction x with
  | nil =>
    intro y h1 h2
    cases y with
    | nil => rfl
    | cons b bs => simp [ltChars] at h1
  | cons a as ih =>
    intro y h1 h2
    cases y with
    | nil => simp [ltChars] at h2
    | cons b bs =>
      simp only [ltChars] at h1 h2
      rcases lt_trichotomy a b with hab | hab | hab
      · simp [hab] at h1
      · subst hab
        simp only [lt_irrefl, if_false] at h1 h2
        simp [ih h1 h2]
      · simp [hab] at h2

/-- The comparator test of the sort is transitive. -/
theorem slotLE_trans : ∀ (a b c : EnrichedSlot), slotLE a b → slotLE b c → slotLE a c := by
  intro a b c h1 h2
  simp only [slotLE, Bool.not_eq_true', Bool.not_eq_eq_eq_not] at h1 h2 ⊢
  cases hca : ltChars c.startTime.toList a.startTime.toList with
  | false => rfl
  | true =>
    exfalso
    cases hab : ltChars a.startTime.toList b.startTime.toList with
    | true =>
      have hcb := ltChars_trans hca hab
      rw [h2] at hcb
      exact Bool.false_ne_true hcb
    | false =>
      have heq : a.startTime.toList = b.startTime.toList := ltChars_conn hab h1
      rw [heq] at hca
      rw [h2] at hca
      exact Bool.false_ne_true hca

/-- The comparator test of the sort is total. -/
theorem slotLE_total : ∀ (a b : EnrichedSlot), slotLE a b || slotLE b a := by
  intro a b
  simp only [slotLE, Bool.or_eq_true, Bool.not_eq_true']
  cases hh : ltChars b.startTime.toList a.startTime.toList with
  | false => exact Or.inl rfl
  | true => exact Or.inr (ltChars_asymm hh)

/-- Stability of the embedded sort: for every start time, the subsequence of
slots with that start time is unchanged by sorting (ties keep stored order). -/
theorem sortSlots_key_stable (l : List EnrichedSlot) (t : String) :
    (sortSlots l).filter (fun e => e.startTime == t) =
      l.filter (fun e => e.startTime == t) := by
  have hperm : List.Perm (sortSlots l) l := List.mergeSort_perm l slotLE
  have hpair : (l.filter (fun e => e.startTime == t)).Pairwise
      (fun a b => slotLE a b = true) := by
    apply List.pairwise_of_forall_mem_list
    intro a ha b hb
    have ha2 : a.startTime = t := by simpa using (List.mem_filter.mp ha).2
    have hb2 : b.startTime = t := by simpa using (List.mem_filter.mp hb).2
    simp [slotLE, ha2, hb2, ltChars_irrefl]
  have hsubl : List.Sublist (l.filter (fun e => e.startTime == t)) (sortSlots l) :=
    List.sublist_mergeSort slotLE_trans slotLE_total hpair (List.filter_sublist l)
  have hff : (l.filter (fun e => e.startTime == t)).filter (fun e => e.startTime == t) =
      l.filter (fun e => e.startTime == t) :=
    List.filter_eq_self.mpr (fun a ha => (List.mem_filter.mp ha).2)
  have hsub2 : List.Sublist (l.filter (fun e => e.startTime == t))
      ((sortSlots l).filter (fun e => e.startTime == t)) := by
    have hstep := hsubl.filter (fun e => e.startTime == t)
    rwa [hff] at hstep
  have hlen : ((sortSlots l).filter (fun e => e.startTime == t)).length =
      (l.filter (fun e => e.startTime == t)).length :=
    (hperm.filter (fun e => e.startTime == t)).length_eq
  exact (hsub2.eq_of_length hlen.symm).symm

/-- The embedded comparison agrees with the standard lexicographic strict
order on character lists. -/
theorem ltChars_iff_lex : ∀ x y : List Char,
    ltChars x y = true ↔ List.Lex (fun a b : Char => a < b) x y := by
  intro x
  induction x with
  | nil =>
    intro y
    cases y with
    | nil =>
      exact iff_of_false Bool.false_ne_true (List.Lex.not_nil_right _ _)
    | cons b bs =>
      exact iff_of_true rfl List.Lex.nil
  | cons a as ih =>
    intro y
    cases y with
    | nil =>
      exact iff_of_false Bool.false_ne_true (List.Lex.not_nil_right _ _)
    | cons b bs =>
      simp only [ltChars]
      constructor
      · intro h
        rcases lt_trichotomy a b with hab | hab | hab
        · exact List.Lex.rel hab
        · subst hab
          simp only [lt_irrefl, if_false] at h
          exact List.Lex.cons ((ih bs).mp h)
        · simp [asymm hab, hab] at h
      · intro h
        cases h with
        | rel hr => simp [hr]
        | cons htail =>
          simp only [lt_irrefl, if_false]
          exact (ih bs).mpr htail

/-- C3: The slot sequence presented for the selected day is the filtered
sequence (a permutation of it) arranged in ascending start-time order — no
slot's start time lexicographically precedes that of an earlier slot — and
slots with equal start times appear in their stored order: for each start
time, the subsequence with that time equals the filtered one. -/
theorem presented_order_sorted_stable (slots : List EnrichedSlot) (d q : String) :
    List.Perm (presentedSlots slots d q) (filterSlots slots d q) ∧
    (presentedSlots slots d q).Pairwise
      (fun a b => ¬ List.Lex (fun x y : Char => x < y)
        b.startTime.toList a.startTime.toList) ∧
    ∀ t, (presentedSlots slots d q).filter (fun e => e.startTime == t) =
      (filterSlots slots d q).filter (fun e => e.startTime == t) := by
  refine ⟨List.mergeSort_perm _ _, ?_, fun t => sortSlots_key_stable _ t⟩
  have hp : (presentedSlots slots d q).Pairwise (fun a b => slotLE a b = true) :=
    List.sorted_mergeSort slotLE_trans slotLE_total _
  refine hp.imp ?_
  intro a b h hlex
  rw [← ltChars_iff_lex] at hlex
  simp only [slotLE, Bool.not_eq_true', String.toList] at h
  simp only [String.toList] at hlex
  rw [hlex] at h
  exact absurd h (by decide)

/-- C10: For every content of the offline database, the test script's
required-data check is false — the stores "tasks" and "userData" can never
satisfy the per-store predicate — so the script always reports missing data
and never prints the success message. -/
theorem offline_check_always_false (counts : String → Nat) :
    hasRequiredData counts = false ∧
    offlineTestReport counts = TestReport.missingData := by
  have h : hasRequiredData counts = false := by
    cases hh : hasRequiredData counts with
    | false => rfl
    | true =>
      have hall := List.all_eq_true.mp hh
      have hmem : ("tasks", counts "tasks") ∈ storeResults counts := by
        simp [storeResults, storesToCheck]
      have hbad := hall _ hmem
      simp at hbad
  exact ⟨h, by simp [offlineTestReport, h]⟩

end NestTask
